import Mathlib

/-!
Verification development for the karpx decision engine.

This file shallowly embeds the decision-engine code of the repository
(`internal/compat/matrix.go`, `internal/nodes/selector.go`,
`internal/kube/workload.go`, `internal/ui/server.go`) into Lean and proves
the specification claims about it.

The Go code delegates semver parsing and comparison to the
Masterminds/semver v3 library; that library's behaviour (loose parsing
with an optional leading "v", zero-filled missing components, prerelease
precedence, constraint checking with the prerelease gate) is modelled
here directly.  Go `float64` arithmetic in the sizing helpers is modelled
by exact integer arithmetic; the two computations agree on every input
in the range where the bucket thresholds are decided (see the comments at
`neededCPU` and `neededMemMiB`).
-/

namespace Karpx

/-! ### Character and string utilities (modelling Go's strings package) -/

/-- Is the character an ASCII decimal digit. -/
def isDigC (c : Char) : Bool := c.isDigit

/-- Characters allowed in a semver prerelease or build-metadata identifier
by the Masterminds regex class: ASCII alphanumerics, hyphen and tilde. -/
def isIdentC (c : Char) : Bool := c.isAlphanum || c = '-' || c = '~'

/-- Decimal value of a digit string (list of chars). -/
def digitsToNat (cs : List Char) : Nat :=
  cs.foldl (fun a c => a * 10 + (c.toNat - '0'.toNat)) 0

/-- Split a character list on a separator character.
Mirrors Go strings.Split: splitting the empty string yields one empty part. -/
def splitOnChar (sep : Char) : List Char → List (List Char)
  | [] => [[]]
  | c :: cs =>
    let r := splitOnChar sep cs
    if c = sep then [] :: r
    else
      match r with
      | [] => [[c]]
      | h :: t => (c :: h) :: t

/-- Join a list of character lists with a separator character.
Mirrors Go strings.Join (with a one-character separator). -/
def joinWithChar (sep : Char) : List (List Char) → List Char
  | [] => []
  | [p] => p
  | p :: ps => p ++ sep :: joinWithChar sep ps

/-- Drop leading space characters (the only whitespace that occurs in the
embedded constraint strings). -/
def dropLeadingSpaces : List Char → List Char
  | [] => []
  | c :: cs => if c = ' ' then dropLeadingSpaces cs else c :: cs

/-- Mirror of Go strings.TrimSpace for the strings appearing in the
embedded matrix (plain spaces only). -/
def trimSpaces (cs : List Char) : List Char :=
  (dropLeadingSpaces (dropLeadingSpaces cs.reverse).reverse)

/-- Mirror of Go strings.TrimPrefix(v, "v"): remove one leading 'v'. -/
def trimV (s : String) : String :=
  match s.data with
  | 'v' :: rest => String.mk rest
  | _ => s

/-! ### The Masterminds/semver v3 version model -/

/-- A parsed semantic version as produced by semver.NewVersion:
numeric major/minor/patch, the dot-split prerelease identifiers, the raw
build metadata (ignored by comparison) and the original input string
(returned by Version.Original). -/
structure Version where
  major : Nat
  minor : Nat
  patch : Nat
  pre : List String
  metadata : String
  original : String
deriving Repr, DecidableEq

/-- ParseUint(·, 10, 64) succeeds: nonempty, all digits, value below 2^64. -/
def isNumId (s : String) : Bool :=
  !s.data.isEmpty && s.data.all isDigC && digitsToNat s.data < 2 ^ 64

/-- Split the trimmed input into the numeric core and the rest beginning
with '-' (prerelease) or '+' (metadata), as the anchored Masterminds
regex does (no core character can be '-' or '+'). -/
def spanCore : List Char → List Char × List Char
  | [] => ([], [])
  | c :: cs =>
    if c = '-' || c = '+' then ([], c :: cs)
    else
      let r := spanCore cs
      (c :: r.1, r.2)

/-- A dot-separated identifier sequence is valid when every identifier is
nonempty and uses only the allowed identifier characters. -/
def validIds (cs : List Char) : Bool :=
  (splitOnChar '.' cs).all fun idc => !idc.isEmpty && idc.all isIdentC

/-- Model of semver.NewVersion (Masterminds v3 loose parsing): an optional
leading 'v'; one to three dot-separated numeric components, each parsed
with ParseUint (so wildcard characters in the regex core class make the
parse fail); optional '-'-prefixed prerelease and '+'-prefixed build
metadata of nonempty identifiers.  Missing components are zero. -/
def mkVersion (s : String) (nums : List Nat) (pre : List String) (meta : List Char) : Version :=
  { major := nums.getD 0 0, minor := nums.getD 1 0, patch := nums.getD 2 0,
    pre := pre, metadata := String.mk meta, original := s }

/-- The dot-split prerelease identifiers of a '-'-prefixed tail. -/
def preIdsOf (r1 : List Char) : List String :=
  (splitOnChar '.' (r1.takeWhile (fun c => c ≠ '+'))).map String.mk

/-- The prerelease/metadata tail of the version grammar: empty, or
'-'-prefixed prerelease identifiers optionally followed by '+'-prefixed
metadata identifiers, or the metadata alone. -/
def parsePreMeta (s : String) (nums : List Nat) : List Char → Option Version
  | [] => some (mkVersion s nums [] [])
  | '-' :: r1 =>
    if !validIds (r1.takeWhile (fun c => c ≠ '+')) then none
    else
      match r1.dropWhile (fun c => c ≠ '+') with
      | [] => some (mkVersion s nums (preIdsOf r1) [])
      | '+' :: metaCs =>
        if validIds metaCs then some (mkVersion s nums (preIdsOf r1) metaCs) else none
      | _ => none
  | '+' :: metaCs => if validIds metaCs then some (mkVersion s nums [] metaCs) else none
  | _ => none

/-- The input characters after stripping the optional leading 'v'. -/
def vstrip (s : String) : List Char :=
  match s.data with
  | 'v' :: rest => rest
  | other => other

/-- The dot-split numeric core components of the input. -/
def coreComps (s : String) : List (List Char) :=
  splitOnChar '.' (spanCore (vstrip s)).1

def parseVersion (s : String) : Option Version :=
  if (coreComps s).length > 3 then none
  else if !(coreComps s).all (fun c => !c.isEmpty && c.all isDigC && digitsToNat c < 2 ^ 64)
    then none
  else parsePreMeta s ((coreComps s).map digitsToNat) (spanCore (vstrip s)).2

/-! ### Version comparison (Masterminds Version.Compare) -/

/-- Three-way comparison on naturals. -/
def nCmp (a b : Nat) : Ordering :=
  if a < b then .lt else if a = b then .eq else .gt

/-- Generic lexicographic three-way comparison on lists: element-wise,
with a strict prefix ordered first. -/
def listCmp (c : α → α → Ordering) : List α → List α → Ordering
  | [], [] => .eq
  | [], _ :: _ => .lt
  | _ :: _, [] => .gt
  | a :: as, b :: bs => (c a b).then (listCmp c as bs)

/-- Character comparison by code point (UTF-8 byte order coincides with
code-point order). -/
def chCmp (a b : Char) : Ordering := nCmp a.toNat b.toNat

/-- Three-way comparison on character lists (Go byte-wise string order). -/
def clCmp : List Char → List Char → Ordering := listCmp chCmp

/-- Go string comparison. -/
def strCmp (s o : String) : Ordering := clCmp s.data o.data

/-- Model of Masterminds comparePrePart: equal strings are equal; the
empty padding part is below everything; numeric identifiers (ParseUint
succeeds) compare by value and are below alphanumeric identifiers, which
compare as Go strings. -/
def idCmp (s o : String) : Ordering :=
  if s = o then .eq
  else if s = "" then .lt
  else if o = "" then .gt
  else
    match isNumId s, isNumId o with
    | true, true => nCmp (digitsToNat s.data) (digitsToNat o.data)
    | true, false => .lt
    | false, true => .gt
    | false, false => strCmp s o

/-- Model of Masterminds comparePrerelease: compare identifier by
identifier, padding the shorter list with empty parts. -/
def preListCmp : List String → List String → Ordering
  | [], [] => .eq
  | [], y :: ys => (idCmp "" y).then (preListCmp [] ys)
  | x :: xs, [] => (idCmp x "").then (preListCmp xs [])
  | x :: xs, y :: ys => (idCmp x y).then (preListCmp xs ys)

/-- Prerelease comparison inside Version.Compare: a version without a
prerelease is above any version with one. -/
def cmpPre : List String → List String → Ordering
  | [], [] => .eq
  | [], _ :: _ => .gt
  | _ :: _, [] => .lt
  | x :: xs, y :: ys => preListCmp (x :: xs) (y :: ys)

/-- Model of Version.Compare: major, minor, patch, then prerelease; build
metadata is ignored. -/
def vCmp (a b : Version) : Ordering :=
  (nCmp a.major b.major).then
    ((nCmp a.minor b.minor).then
      ((nCmp a.patch b.patch).then (cmpPre a.pre b.pre)))

/-! ### Constraints (Masterminds semver.NewConstraint / Constraints.Check)

The embedded matrix only uses "and"-composed comparators of the forms
">= x.y.z" and "< x.y.z"; the model covers exactly this fragment and
rejects anything else (the Go code skips rules whose constraint fails to
parse). -/

/-- A comparison operator occurring in the embedded matrix. -/
inductive CompOp
  | ge
  | lt
deriving Repr, DecidableEq

/-- Parse one comparator such as ">= 1.4.0" or "< 2.0.0". -/
def parseComparator (cs : List Char) : Option (CompOp × Version) :=
  match cs with
  | '>' :: '=' :: rest =>
    match parseVersion (String.mk (trimSpaces rest)) with
    | some v => some (.ge, v)
    | none => none
  | '<' :: rest =>
    match parseVersion (String.mk (trimSpaces rest)) with
    | some v => some (.lt, v)
    | none => none
  | _ => none

/-- Parse a comma-separated "and" constraint such as ">= 1.2.0, < 1.4.0". -/
def parseConstraint (s : String) : Option (List (CompOp × Version)) :=
  (splitOnChar ',' s.data).mapM fun part => parseComparator (trimSpaces part)

/-- One comparator check.  Masterminds refuses to match a version carrying
a prerelease against a comparator whose version has none ("prerelease
versions are not checked against constraints without a prerelease"). -/
def compCheck (op : CompOp) (w v : Version) : Bool :=
  if !v.pre.isEmpty && w.pre.isEmpty then false
  else
    match op with
    | .ge => vCmp v w ≠ .lt
    | .lt => vCmp v w = .lt

/-- Constraints.Check: all comparators must hold. -/
def conCheck (c : List (CompOp × Version)) (v : Version) : Bool :=
  c.all fun aw => compCheck aw.1 aw.2 v

/-! ### internal/compat/matrix.go -/

/-- One row of the embedded compatibility matrix. -/
structure K8sRange where
  karpenterConstraint : String
  k8sMin : String
  k8sMax : String
deriving Repr, DecidableEq

/-- The embedded compatibility matrix, verbatim from matrix.go. -/
def compatMatrix : List K8sRange :=
  [ { karpenterConstraint := ">= 1.4.0, < 2.0.0", k8sMin := "1.29.0", k8sMax := "1.33.99" },
    { karpenterConstraint := ">= 1.2.0, < 1.4.0", k8sMin := "1.29.0", k8sMax := "1.32.99" },
    { karpenterConstraint := ">= 1.0.0, < 1.2.0", k8sMin := "1.28.0", k8sMax := "1.31.99" },
    { karpenterConstraint := ">= 0.37.0, < 1.0.0", k8sMin := "1.27.0", k8sMax := "1.30.99" },
    { karpenterConstraint := ">= 0.35.0, < 0.37.0", k8sMin := "1.27.0", k8sMax := "1.29.99" },
    { karpenterConstraint := ">= 0.33.0, < 0.35.0", k8sMin := "1.26.0", k8sMax := "1.28.99" } ]

/-- normalise (matrix.go): strip one leading "v", split on ".", pad with
"0" to three components, join the first three with ".". -/
def normalise (v : String) : String :=
  let v1 := (trimV v).data
  let parts := splitOnChar '.' v1
  let padded :=
    if parts.length < 3 then parts ++ List.replicate (3 - parts.length) ['0'] else parts
  String.mk (joinWithChar '.' (padded.take 3))

/-- The in-range test of IsCompatible's matched rule: parse the rule's
bounds and require k8sMin ≤ k8sv ≤ k8sMax.  For the embedded matrix both
bounds always parse; the `none` fallback is unreachable there (the Go
code ignores the parse error and would dereference nil). -/
def ruleRangeOK (rule : K8sRange) (k8sv : Version) : Bool :=
  match parseVersion rule.k8sMin, parseVersion rule.k8sMax with
  | some lo, some hi => vCmp k8sv lo ≠ .lt && vCmp k8sv hi ≠ .gt
  | _, _ => false

/-- The rule loop of IsCompatible: rules are consulted in declaration
order; a rule whose constraint fails to parse is skipped; the first rule
whose constraint contains the Karpenter version decides via its
Kubernetes range; no matching rule means false. -/
def checkRules : List K8sRange → Version → Version → Bool
  | [], _, _ => false
  | rule :: rest, kv, k8sv =>
    match parseConstraint rule.karpenterConstraint with
    | none => checkRules rest kv k8sv
    | some c =>
      if conCheck c kv then ruleRangeOK rule k8sv
      else checkRules rest kv k8sv

/-- IsCompatible (matrix.go): parse the Karpenter version after stripping
one leading "v", parse the Kubernetes version after normalise, fail
closed on either parse error, then walk the embedded matrix. -/
def IsCompatible (karpVersion k8sVersion : String) : Bool :=
  match parseVersion (trimV karpVersion), parseVersion (normalise k8sVersion) with
  | some kv, some k8sv => checkRules compatMatrix kv k8sv
  | _, _ => false

/-- The comparator used by FilterCompatible's sort, on the raw candidate
strings: parse both sides with semver.NewVersion and compare.  A string
that fails to parse is totalised below every parsed one; in Go such an
element would make the comparator dereference nil, so theorems about the
sort carry the hypothesis that every candidate parses. -/
def rawCmp (a b : String) : Ordering :=
  match parseVersion a, parseVersion b with
  | some x, some y => vCmp x y
  | some _, none => .gt
  | none, some _ => .lt
  | none, none => .eq

/-- The descending order used to state sortedness of FilterCompatible's
output: an earlier element compares greater than or equal to a later one. -/
def descGE (a b : String) : Prop := rawCmp a b ≠ .lt

instance : DecidableRel descGE := fun a b => by unfold descGE; infer_instance

/-- FilterCompatible (matrix.go): keep the compatible candidates and sort
them descending (sort.Slice with a GreaterThan comparator; the model uses
insertion sort, which realises the same contract: a permutation of the
kept elements, sorted by the comparator). -/
def FilterCompatible (k8sVersion : String) (available : List String) : List String :=
  List.insertionSort descGE (available.filter fun v => IsCompatible v k8sVersion)

/-- The part scan of lowerBoundOf: the first trimmed part with a ">="
prefix yields its trimmed remainder. -/
def lowerBoundScan : List (List Char) → String
  | [] => ""
  | part :: rest =>
    match trimSpaces part with
    | '>' :: '=' :: tail => String.mk (trimSpaces tail)
    | _ => lowerBoundScan rest

/-- lowerBoundOf (matrix.go): the ">="-bound of a constraint string. -/
def lowerBoundOf (constraint : String) : String :=
  lowerBoundScan (splitOnChar ',' constraint.data)

/-- MinCompatibleKarpenter (matrix.go): among the rules whose Kubernetes
range contains the normalised cluster version, the smallest constraint
lower bound, returned as its original string; "" when nothing matches. -/
def MinCompatibleKarpenter (k8sVersion : String) : String :=
  match parseVersion (normalise k8sVersion) with
  | none => ""
  | some k8sv =>
    let step := fun (minVer : Option Version) (rule : K8sRange) =>
      if ruleRangeOK rule k8sv then
        let lb := lowerBoundOf rule.karpenterConstraint
        if lb = "" then minVer
        else
          match parseVersion lb with
          | none => minVer
          | some lv =>
            match minVer with
            | none => some lv
            | some mv => if vCmp lv mv = .lt then some lv else minVer
      else minVer
    match compatMatrix.foldl step none with
    | none => ""
    | some mv => mv.original

/-! ### The spec's reading of normalisation (for claim C2)

The spec asserts that both inputs of IsCompatible go through one
normalisation function that strips a leading "v", strips any "-"/"+"
suffix, and zero-fills to three components.  The following two
definitions follow the spec's words, to be compared with the code's
IsCompatible above. -/

/-- The normalisation function as the spec describes it: leading "v"
stripped, any "-"/"+" build-metadata suffix stripped, missing components
zero-filled to three. -/
def specNormalise (v : String) : String :=
  let v1 := (trimV v).data
  let core := (spanCore v1).1
  let parts := splitOnChar '.' core
  let padded :=
    if parts.length < 3 then parts ++ List.replicate (3 - parts.length) ['0'] else parts
  String.mk (joinWithChar '.' (padded.take 3))

/-- IsCompatible as the spec describes it: one normalisation function
applied identically to both inputs before parsing. -/
def specIsCompatible (karpVersion k8sVersion : String) : Bool :=
  match parseVersion (specNormalise karpVersion), parseVersion (specNormalise k8sVersion) with
  | some kv, some k8sv => checkRules compatMatrix kv k8sv
  | _, _ => false

/-! ### internal/kube (provider.go, workload.go) -/

/-- kube.Provider is a string type with four named constants. -/
def Provider := String
deriving DecidableEq, Repr

def ProviderAWS : Provider := "aws"
def ProviderAzure : Provider := "azure"
def ProviderGCP : Provider := "gcp"
def ProviderUnknown : Provider := "unknown"

/-- kube.WorkloadProfile.  Go ints are modelled as Int; the float64 field
MemPerCPUGiB is modelled as an exact rational (its comparisons against
the exactly representable literals 4.0, 2.0 and 0 decide the same way). -/
structure WorkloadProfile where
  TotalPods : Int
  TotalCPUm : Int
  TotalMemMiB : Int
  MaxPodCPUm : Int
  MaxPodMemMiB : Int
  HasGPU : Bool
  HasBatchJobs : Bool
  MemPerCPUGiB : ℚ
  Namespaces : Int
  NoRequests : Bool
deriving DecidableEq, Repr

/-- kube.WorkloadType is a string type with six named constants. -/
def WorkloadType := String
deriving DecidableEq, Repr

def WorkloadGeneral : WorkloadType := "general"
def WorkloadMemory : WorkloadType := "memory"
def WorkloadCPU : WorkloadType := "cpu"
def WorkloadGPU : WorkloadType := "gpu"
def WorkloadBatch : WorkloadType := "batch"
def WorkloadUnknown : WorkloadType := "unknown"

/-- ClassifyWorkload (workload.go), branch for branch. -/
def ClassifyWorkload (p : WorkloadProfile) : WorkloadType :=
  if p.HasGPU then WorkloadGPU
  else if p.NoRequests || p.TotalPods = 0 then WorkloadUnknown
  else if p.MemPerCPUGiB > 4 then WorkloadMemory
  else if p.MemPerCPUGiB < 2 && p.MemPerCPUGiB > 0 then WorkloadCPU
  else if p.HasBatchJobs then WorkloadBatch
  else WorkloadGeneral

/-! ### internal/nodes/selector.go -/

/-- nodes.OptimizationMode is a string type with three named constants. -/
def OptimizationMode := String
deriving DecidableEq, Repr

def ModeCostOptimized : OptimizationMode := "cost"
def ModeBalanced : OptimizationMode := "balanced"
def ModeHighPerformance : OptimizationMode := "performance"

/-- nodes.Recommendation. -/
structure Recommendation where
  Mode : OptimizationMode
  WorkloadType : WorkloadType
  Provider : Provider
  InstanceFamilies : List String
  CapacityTypes : List String
  Architectures : List String
  CPUSizes : List String
  MinNodeCPU : Int
  MinNodeMiB : Int
  Reasoning : List String
deriving DecidableEq, Repr

/-- The scaled CPU demand in minCPU: Go computes
int((float64(m) / 1000.0) * 1.2).  As an exact rational this is
m * 3 / 2500 truncated toward zero, which Int.div computes.  The float64
evaluation agrees with the exact value everywhere a bucket threshold can
be crossed (see the file header). -/
def neededCPU (maxPodCPUm : Int) : Int := Int.tdiv (3 * maxPodCPUm) 2500

/-- minCPU (selector.go). -/
def minCPU (maxPodCPUm : Int) : Int :=
  if maxPodCPUm = 0 then 2
  else
    let needed := neededCPU maxPodCPUm
    if needed ≤ 1 then 2
    else if needed ≤ 2 then 2
    else if needed ≤ 4 then 4
    else if needed ≤ 8 then 8
    else 16

/-- The scaled memory demand in minMemMiB: Go computes
int(float64(m) * 1.25); 1.25 is exactly representable, so this is
m * 5 / 4 truncated toward zero. -/
def neededMemMiB (maxPodMemMiB : Int) : Int := Int.tdiv (5 * maxPodMemMiB) 4

/-- minMemMiB (selector.go). -/
def minMemMiB (maxPodMemMiB : Int) : Int :=
  if maxPodMemMiB = 0 then 2048
  else
    let needed := neededMemMiB maxPodMemMiB
    if needed ≤ 1024 then 2048
    else if needed ≤ 2048 then 2048
    else if needed ≤ 4096 then 4096
    else if needed ≤ 8192 then 8192
    else if needed ≤ 16384 then 16384
    else 32768

/-- The fixed vCPU size candidates of cpuSizes. -/
def cpuSizesAll : List String := ["2", "4", "8", "16", "32", "48", "64"]

/-- cpuSizes (selector.go): the fixed candidate list filtered to sizes at
least minCPU (Sscanf on these literals reads their decimal value), with a
non-empty fallback. -/
def cpuSizes (minC : Int) : List String :=
  if (cpuSizesAll.filter fun s => (digitsToNat s.data : Int) ≥ minC).isEmpty
  then ["16", "32", "64"]
  else cpuSizesAll.filter fun s => (digitsToNat s.data : Int) ≥ minC

/-- addReasons (selector.go). -/
def addReasons (existing : List String) (more : List String) : List String :=
  existing ++ more

/-- buildAWS (selector.go), translated switch for switch; the Go switch
on mode treats any value other than cost/performance as balanced. -/
def buildAWS (r : Recommendation) (p : WorkloadProfile) (wtype : WorkloadType)
    (mode : OptimizationMode) : Recommendation :=
  if mode = ModeCostOptimized then
    let r := { r with CapacityTypes := ["spot", "on-demand"] }
    if wtype = WorkloadGPU then
      { r with InstanceFamilies := ["g5g", "g4dn", "g5"],
               Architectures := ["arm64", "amd64"],
               Reasoning := addReasons r.Reasoning
                 ["GPU workloads detected — using spot-eligible GPU families (g5g Graviton first)",
                  "Spot GPU saves ~70% vs on-demand; ensure GPU pods tolerate interruption"] }
    else if wtype = WorkloadMemory then
      { r with InstanceFamilies := ["r7g", "r6g", "r7i", "r6i"],
               Architectures := ["arm64", "amd64"],
               Reasoning := addReasons r.Reasoning
                 ["Memory-intensive workloads (>4 GiB/core) — memory-optimised families (r-series)",
                  "Graviton r7g/r6g selected first for best $/GiB ratio on Spot"] }
    else if wtype = WorkloadCPU then
      { r with InstanceFamilies := ["c7g", "c6g", "c7i", "c6i", "c6a"],
               Architectures := ["arm64", "amd64"],
               Reasoning := addReasons r.Reasoning
                 ["Compute-intensive workloads (<2 GiB/core) — compute-optimised families (c-series)",
                  "Graviton c7g/c6g offer best compute $/vCPU on Spot"] }
    else if wtype = WorkloadBatch then
      { r with InstanceFamilies := ["m7g", "m6g", "c7g", "c6g", "m7i", "m6i"],
               Architectures := ["arm64", "amd64"],
               Reasoning := addReasons r.Reasoning
                 ["Batch/job workloads — mixed general+compute families with Spot for lowest cost",
                  "Karpenter's consolidation will terminate idle nodes between job runs"] }
    else
      { r with InstanceFamilies := ["m7g", "m6g", "m7i", "m6i", "m6a"],
               Architectures := ["arm64", "amd64"],
               Reasoning := addReasons r.Reasoning
                 ["General-purpose workloads — latest Graviton + Intel m-series",
                  "arm64 (Graviton) included for ~20% better price/performance on Spot"] }
  else if mode = ModeHighPerformance then
    let r := { r with CapacityTypes := ["on-demand"], Architectures := ["amd64"] }
    if wtype = WorkloadGPU then
      { r with InstanceFamilies := ["p4d", "p3", "g5", "g4dn"],
               Reasoning := addReasons r.Reasoning
                 ["GPU workloads detected — high-performance NVIDIA GPU families (p4d/p3/g5)",
                  "On-demand only to guarantee availability and avoid interruption"] }
    else if wtype = WorkloadMemory then
      { r with InstanceFamilies := ["r7i", "r6i", "r5n", "x2idn"],
               Reasoning := addReasons r.Reasoning
                 ["Memory-intensive workloads — Intel memory-optimised (r7i/r6i/x2idn)",
                  "On-demand ensures consistent availability for stateful/memory services"] }
    else if wtype = WorkloadCPU then
      { r with InstanceFamilies :=
                 (if p.HasBatchJobs then ["c7i", "c6i", "c5n", "hpc7g", "c6a"]
                  else ["c7i", "c6i", "c5n", "hpc7g"]),
               Reasoning := addReasons r.Reasoning
                 ["Compute-intensive — latest Intel c7i/c6i compute-optimised",
                  "c5n/hpc7g for network/HPC workloads if applicable"] }
    else
      { r with InstanceFamilies := ["m7i", "c7i", "m6i", "c6i"],
               Reasoning := addReasons r.Reasoning
                 ["High-performance general: latest-gen Intel m7i/c7i on-demand",
                  "No Spot to eliminate interruptions for latency-sensitive services"] }
  else
    let r := { r with CapacityTypes := ["spot", "on-demand"],
                      Architectures := ["arm64", "amd64"] }
    if wtype = WorkloadGPU then
      { r with InstanceFamilies := ["g5", "g5g", "g4dn", "p3"],
               Reasoning := addReasons r.Reasoning
                 ["GPU workloads — balanced mix of GPU families, spot+on-demand"] }
    else if wtype = WorkloadMemory then
      { r with InstanceFamilies := ["r7g", "r7i", "r6g", "r6i", "m7g", "m7i"],
               Reasoning := addReasons r.Reasoning
                 ["Memory workloads — balanced mix of memory-optimised families"] }
    else if wtype = WorkloadCPU then
      { r with InstanceFamilies := ["c7g", "c7i", "m7g", "m7i", "c6g", "c6i"],
               Reasoning := addReasons r.Reasoning
                 ["Compute workloads — balanced compute + general families"] }
    else
      { r with InstanceFamilies := ["m7g", "m7i", "c7g", "c7i", "m6g", "m6i"],
               Reasoning := addReasons r.Reasoning
                 ["Balanced: mixed Graviton + Intel latest-gen, Spot + on-demand"] }

/-- buildAzure (selector.go). -/
def buildAzure (r : Recommendation) (wtype : WorkloadType)
    (mode : OptimizationMode) : Recommendation :=
  if mode = ModeCostOptimized then
    let r := { r with CapacityTypes := ["spot", "on-demand"], Architectures := ["amd64"] }
    if wtype = WorkloadGPU then
      { r with InstanceFamilies := ["NC", "ND"],
               Reasoning := addReasons r.Reasoning
                 ["GPU workloads — NC/ND series Azure GPU VMs with Spot pricing"] }
    else if wtype = WorkloadMemory then
      { r with InstanceFamilies := ["E", "M"],
               Reasoning := addReasons r.Reasoning
                 ["Memory workloads — E-series (memory-optimised) on Spot"] }
    else if wtype = WorkloadCPU then
      { r with InstanceFamilies := ["F", "FX"],
               Reasoning := addReasons r.Reasoning
                 ["Compute workloads — F-series (compute-optimised) on Spot"] }
    else
      { r with InstanceFamilies := ["D", "Das", "Dads"],
               Reasoning := addReasons r.Reasoning
                 ["General: Dadsv5 (AMD) / Dasv5 — best $/vCPU on Azure Spot"] }
  else if mode = ModeHighPerformance then
    let r := { r with CapacityTypes := ["on-demand"], Architectures := ["amd64"] }
    if wtype = WorkloadGPU then
      { r with InstanceFamilies := ["NC", "NCv3", "ND", "NDv2"],
               Reasoning := addReasons r.Reasoning
                 ["GPU: high-end NC/ND series (V100/A100) on-demand"] }
    else if wtype = WorkloadMemory then
      { r with InstanceFamilies := ["E", "M", "MediumMemory"],
               Reasoning := addReasons r.Reasoning
                 ["Memory: E-series + M-series (up to 4 TiB RAM) on-demand"] }
    else if wtype = WorkloadCPU then
      { r with InstanceFamilies := ["Fx", "FX", "Fs"],
               Reasoning := addReasons r.Reasoning
                 ["Compute: Fx-series (latest Intel Sapphire Rapids) on-demand"] }
    else
      { r with InstanceFamilies := ["D", "Ds", "Dls"],
               Reasoning := addReasons r.Reasoning
                 ["High-perf general: Dv5-series (Intel) on-demand"] }
  else
    { r with CapacityTypes := ["spot", "on-demand"], Architectures := ["amd64"],
             InstanceFamilies := ["D", "Das", "E", "F"],
             Reasoning := addReasons r.Reasoning
               ["Balanced: D/E/F Azure families, Spot + on-demand"] }

/-- buildGCP (selector.go). -/
def buildGCP (r : Recommendation) (wtype : WorkloadType)
    (mode : OptimizationMode) : Recommendation :=
  if mode = ModeCostOptimized then
    let r := { r with CapacityTypes := ["spot", "on-demand"], Architectures := ["amd64"] }
    if wtype = WorkloadGPU then
      { r with InstanceFamilies := ["a2", "g2"],
               Reasoning := addReasons r.Reasoning
                 ["GPU: a2 (A100) / g2 (L4) with Spot pricing"] }
    else if wtype = WorkloadMemory then
      { r with InstanceFamilies := ["n2d", "m3"],
               Reasoning := addReasons r.Reasoning
                 ["Memory: n2d (AMD, cheapest) + m3 for large memory needs"] }
    else if wtype = WorkloadCPU then
      { r with InstanceFamilies := ["c2d", "n2d"],
               Reasoning := addReasons r.Reasoning
                 ["Compute: c2d (AMD EPYC) — best $/vCPU on GCP Spot"] }
    else
      { r with InstanceFamilies := ["n2d", "n2", "t2d"],
               Reasoning := addReasons r.Reasoning
                 ["General: n2d (AMD) + t2d (Arm) — lowest cost on Spot"] }
  else if mode = ModeHighPerformance then
    let r := { r with CapacityTypes := ["on-demand"], Architectures := ["amd64"] }
    if wtype = WorkloadGPU then
      { r with InstanceFamilies := ["a3", "a2"],
               Reasoning := addReasons r.Reasoning
                 ["GPU: a3 (H100) / a2 (A100) on-demand — highest throughput"] }
    else if wtype = WorkloadMemory then
      { r with InstanceFamilies := ["m3", "m2"],
               Reasoning := addReasons r.Reasoning
                 ["Memory: m3 (Intel Sapphire Rapids) up to 30 TiB RAM"] }
    else if wtype = WorkloadCPU then
      { r with InstanceFamilies := ["c3", "c2"],
               Reasoning := addReasons r.Reasoning
                 ["Compute: c3 (Intel Sapphire Rapids) on-demand"] }
    else
      { r with InstanceFamilies := ["n2", "c3", "n4"],
               Reasoning := addReasons r.Reasoning
                 ["High-perf general: n2/c3 Intel on-demand"] }
  else
    { r with CapacityTypes := ["spot", "on-demand"], Architectures := ["amd64"],
             InstanceFamilies := ["n2", "n2d", "c2d"],
             Reasoning := addReasons r.Reasoning
               ["Balanced: n2 (Intel) + n2d (AMD) + c2d, Spot + on-demand"] }

/-- Build (selector.go): classify, fill the sizing hints (including
CPUSizes, set before the provider switch), then dispatch on the provider;
any provider other than aws/azure/gcp only gets the generic reasoning. -/
def Build (profile : WorkloadProfile) (mode : OptimizationMode)
    (provider : Provider) : Recommendation :=
  let wtype := ClassifyWorkload profile
  let r : Recommendation :=
    { Mode := mode, WorkloadType := wtype, Provider := provider,
      InstanceFamilies := [], CapacityTypes := [], Architectures := [],
      CPUSizes := [], MinNodeCPU := 0, MinNodeMiB := 0, Reasoning := [] }
  let r := { r with MinNodeCPU := minCPU profile.MaxPodCPUm }
  let r := { r with MinNodeMiB := minMemMiB profile.MaxPodMemMiB }
  let r := { r with CPUSizes := cpuSizes r.MinNodeCPU }
  if provider = ProviderAWS then buildAWS r profile wtype mode
  else if provider = ProviderAzure then buildAzure r wtype mode
  else if provider = ProviderGCP then buildGCP r wtype mode
  else
    { r with
      Reasoning := addReasons r.Reasoning ["Provider unknown — showing generic guidance only"] }

/-! ### internal/ui/server.go — the concurrent status aggregator

The external collaborators (kubectl/client-go, helm, the GitHub release
index) are modelled as an environment of per-context outcomes; the
scheduler is modelled as an arbitrary completion order writing into the
pre-allocated result slots, exactly as the goroutines in checkClusters
write results[i]. -/

/-- ClusterStatus (server.go).  The Go zero values are false/""/nil. -/
structure ClusterStatus where
  Context : String
  Provider : String
  K8sVersion : String
  KarpenterInstalled : Bool
  KarpenterVersion : String
  Compatible : Option Bool
  UpgradeAvailable : Bool
  LatestCompatible : String
  MinCompatible : String
  Error : String
deriving DecidableEq, Repr

/-- The zero ClusterStatus, as allocated by make([]ClusterStatus, n). -/
def zeroStatus : ClusterStatus :=
  { Context := "", Provider := "", K8sVersion := "", KarpenterInstalled := false,
    KarpenterVersion := "", Compatible := none, UpgradeAvailable := false,
    LatestCompatible := "", MinCompatible := "", Error := "" }

/-- helm.Info (detect.go). -/
structure Info where
  Installed : Bool
  ReleaseName : String
  Version : String
  Namespace : String
  Chart : String
deriving DecidableEq, Repr

/-- The outcome of the version fetch launched under withTimeout: the call
returns a value, returns an error, or misses the 5 s deadline. -/
inductive FetchOutcome
  | ok (v : String)
  | err (e : String)
  | timeout
deriving DecidableEq, Repr

/-- The external collaborators of one dashboard refresh, per context.
releases is the one GitHub release-index fetch (FetchAvailableVersions). -/
structure Env where
  detectProvider : String → Provider
  getServerVersion : String → FetchOutcome
  detectKarpenter : String → Except String Info
  releases : Except String (List String)

/-- withTimeout (server.go) applied to the version fetch: the function's
own result is passed through; missing the deadline yields the
distinguished timeout error (fmt.Errorf("timeout after %s", 5*time.Second)). -/
def withTimeout : FetchOutcome → Except String String
  | .ok v => .ok v
  | .err e => .error e
  | .timeout => .error "timeout after 5s"

/-- compat.LatestCompatible as used by inspectContext (errors and the full
list are discarded there): "" on fetch error or when nothing is
compatible, otherwise the first (largest) compatible version. -/
def latestCompatibleOf (env : Env) (k8sVersion : String) : String :=
  match env.releases with
  | .error _ => ""
  | .ok available =>
    match FilterCompatible k8sVersion available with
    | [] => ""
    | v :: _ => v

/-- inspectContext (server.go), step for step: provider detection, the
version fetch under a timeout, helm detection, then the AWS-only
compatibility block.  Each failure writes Error and returns early,
leaving the remaining fields at their zero values. -/
def inspectContext (env : Env) (ctx : String) : ClusterStatus :=
  let s := { zeroStatus with Context := ctx }
  let provider := env.detectProvider ctx
  let s := { s with Provider := (provider : String) }
  match withTimeout (env.getServerVersion ctx) with
  | .error e => { s with Error := "cluster unreachable: " ++ e }
  | .ok k8sVer =>
    let s := { s with K8sVersion := k8sVer }
    match env.detectKarpenter ctx with
    | .error e => { s with Error := "helm error: " ++ e }
    | .ok info =>
      let s := { s with KarpenterInstalled := info.Installed,
                        KarpenterVersion := if info.Installed then trimV info.Version else "" }
      if provider = ProviderAWS then
        let s := { s with MinCompatible := MinCompatibleKarpenter k8sVer }
        let latest := latestCompatibleOf env k8sVer
        if info.Installed then
          let installed := trimV info.Version
          let ok := IsCompatible installed k8sVer
          let s := { s with Compatible := some ok }
          if latest ≠ "" && latest ≠ installed then
            { s with UpgradeAvailable := true, LatestCompatible := latest }
          else s
        else
          { s with LatestCompatible := latest }
      else s

/-- One scheduled completion: the goroutine for slot i writes
inspectContext of its own context into its own pre-allocated slot. -/
def writeSlot (env : Env) (contexts : List String) (acc : List ClusterStatus)
    (i : Nat) : List ClusterStatus :=
  acc.set i (inspectContext env (contexts.getD i ""))

/-- checkClusters under an arbitrary completion order: starting from the
zero-filled result slice, each completed inspection writes its slot.
Any order that completes every index models one possible interleaving of
the bounded fan-out. -/
def runSchedule (env : Env) (contexts : List String) (order : List Nat) :
    List ClusterStatus :=
  order.foldl (writeSlot env contexts) (List.replicate contexts.length zeroStatus)

/-- checkClusters (server.go): every index completes exactly once; the
particular order chosen here is immaterial (see the schedule theorems). -/
def checkClusters (env : Env) (contexts : List String) : List ClusterStatus :=
  runSchedule env contexts (List.range contexts.length)

/-! ### Auxiliary definitions for the statements and proofs -/

/-- c is oriented and transitively coherent on elements satisfying P.
Needed for the sortedness of FilterCompatible's output; the predicate
cuts out the values the comparator is actually applied to (prerelease
identifier lists produced by the parser never contain the empty padding
identifier). -/
def TransOn (P : α → Prop) (c : α → α → Ordering) : Prop :=
  (∀ a b, c a b = (c b a).swap) ∧
  (∀ a b d, P a → P b → P d → c a b ≠ .gt → c b d ≠ .gt → c a d ≠ .gt)

/-- The rank of a prerelease identifier in the comparePrePart order:
the empty padding part, then numbers, then alphanumerics. -/
def idRank (s : String) : Nat := if s = "" then 0 else if isNumId s then 1 else 2

/-- The numeric key of a prerelease identifier (0 unless numeric). -/
def idNumVal (s : String) : Nat := if isNumId s then digitsToNat s.data else 0

/-- The string key of a prerelease identifier (empty for numerics). -/
def idStrVal (s : String) : List Char := if isNumId s then [] else s.data

/-- An identifier list is clean when the parser could have produced it:
no identifier is the empty string. -/
def cleanIds (l : List String) : Prop := ∀ x ∈ l, x ≠ ""

/-- A version is well formed when its prerelease identifiers are clean;
every parsed version is. -/
def wfV (v : Version) : Prop := cleanIds v.pre

/-- The guard of one iteration of the IsCompatible rule loop: the rule's
constraint parses and contains the Karpenter version. -/
def ruleMatches (rule : K8sRange) (kv : Version) : Bool :=
  match parseConstraint rule.karpenterConstraint with
  | none => false
  | some c => conCheck c kv

/-- The fixed ascending vCPU buckets of minCPU. -/
def cpuBuckets : List Int := [2, 4, 8, 16]

/-- The fixed ascending memory buckets of minMemMiB. -/
def memBuckets : List Int := [2048, 4096, 8192, 16384, 32768]

/-- Snap a demand up to the first bucket at least as large, falling back
to the largest bucket when the demand exceeds every bucket. -/
def snapUp (buckets : List Int) (fallback : Int) (x : Int) : Int :=
  match buckets.find? (fun b => x ≤ b) with
  | some b => b
  | none => fallback

/-- A profile with no observed workloads (fixture). -/
def pEmpty : WorkloadProfile :=
  { TotalPods := 0, TotalCPUm := 0, TotalMemMiB := 0, MaxPodCPUm := 0, MaxPodMemMiB := 0,
    HasGPU := false, HasBatchJobs := false, MemPerCPUGiB := 0, Namespaces := 0,
    NoRequests := true }

/-- A profile whose pods request CPU but no memory (fixture): it has
requests, pods, no GPU, and a memory-per-core ratio of zero. -/
def pCpuOnly : WorkloadProfile :=
  { TotalPods := 1, TotalCPUm := 1000, TotalMemMiB := 0, MaxPodCPUm := 1000,
    MaxPodMemMiB := 0, HasGPU := false, HasBatchJobs := false, MemPerCPUGiB := 0,
    Namespaces := 1, NoRequests := false }

/-- A compute-heavy profile with ratio 1 GiB per core (fixture). -/
def pRatioOne : WorkloadProfile :=
  { TotalPods := 2, TotalCPUm := 2000, TotalMemMiB := 2048, MaxPodCPUm := 1500,
    MaxPodMemMiB := 1024, HasGPU := false, HasBatchJobs := false, MemPerCPUGiB := 1,
    Namespaces := 1, NoRequests := false }

/-- An environment whose clusters are all unreachable (fixture). -/
def envDown : Env :=
  { detectProvider := fun _ => ProviderUnknown,
    getServerVersion := fun _ => .timeout,
    detectKarpenter := fun _ => .error "exit status 1",
    releases := .error "no network" }

/-- An environment where the version fetch errors and helm errors
(fixture for the error paths). -/
def envErr : Env :=
  { detectProvider := fun _ => ProviderAWS,
    getServerVersion := fun c => if c = "down" then .err "connection refused" else .ok "1.31.0",
    detectKarpenter := fun _ => .error "helm not found",
    releases := .ok ["1.5.2", "1.4.0"] }

/-! ### Order theory for the comparators -/

theorem swap_eq_lt {o : Ordering} : o.swap = .lt ↔ o = .gt := by
  cases o <;> simp [Ordering.swap]

theorem swap_eq_gt {o : Ordering} : o.swap = .gt ↔ o = .lt := by
  cases o <;> simp [Ordering.swap]

theorem swap_eq_eq {o : Ordering} : o.swap = .eq ↔ o = .eq := by
  cases o <;> simp [Ordering.swap]

theorem then_ne_gt {x y : Ordering} :
    x.then y ≠ .gt ↔ x = .lt ∨ (x = .eq ∧ y ≠ .gt) := by
  cases x <;> simp [Ordering.then]

theorem then_ne_lt {x y : Ordering} :
    x.then y ≠ .lt ↔ x = .gt ∨ (x = .eq ∧ y ≠ .lt) := by
  cases x <;> simp [Ordering.then]

theorem transOn_lt_iff_gt {P : α → Prop} {c} (h : TransOn P c) (a b : α) :
    c a b = .lt ↔ c b a = .gt := by
  rw [h.1 a b, swap_eq_lt]

theorem transOn_ne_gt_iff {P : α → Prop} {c} (h : TransOn P c) (a b : α) :
    c a b ≠ .gt ↔ c b a ≠ .lt := by
  rw [h.1 a b]; simp [swap_eq_gt]

theorem transOn_refl {P : α → Prop} {c : α → α → Ordering} (h : TransOn P c) (a : α) :
    c a a = .eq := by
  have hs := h.1 a a
  cases hc : c a a <;> rw [hc] at hs <;> simp [Ordering.swap] at hs

theorem transOn_ge_trans {P : α → Prop} {c} (h : TransOn P c) {a b d : α}
    (pa : P a) (pb : P b) (pd : P d)
    (h₁ : c a b ≠ .lt) (h₂ : c b d ≠ .lt) : c a d ≠ .lt := by
  rw [← transOn_ne_gt_iff h] at *
  exact h.2 d b a pd pb pa h₂ h₁

theorem transOn_lt_le_trans {P : α → Prop} {c} (h : TransOn P c) {a b d : α}
    (pa : P a) (pb : P b) (pd : P d)
    (h₁ : c a b = .lt) (h₂ : c b d ≠ .gt) : c a d = .lt := by
  by_contra hne
  have hda : c d a ≠ .gt := by
    rw [transOn_ne_gt_iff h]; exact hne
  have hba : c b a ≠ .gt := h.2 b d a pb pd pa h₂ hda
  rw [transOn_ne_gt_iff h] at hba
  exact hba h₁

theorem transOn_le_lt_trans {P : α → Prop} {c} (h : TransOn P c) {a b d : α}
    (pa : P a) (pb : P b) (pd : P d)
    (h₁ : c a b ≠ .gt) (h₂ : c b d = .lt) : c a d = .lt := by
  by_contra hne
  have hda : c d a ≠ .gt := by
    rw [transOn_ne_gt_iff h]; exact hne
  have hdb : c d b ≠ .gt := h.2 d a b pd pa pb hda h₁
  rw [transOn_ne_gt_iff h] at hdb
  exact hdb h₂

theorem transOn_eq_trans {P : α → Prop} {c} (h : TransOn P c) {a b d : α}
    (pa : P a) (pb : P b) (pd : P d)
    (h₁ : c a b = .eq) (h₂ : c b d = .eq) : c a d = .eq := by
  have hng : c a d ≠ .gt := h.2 a b d pa pb pd (by simp [h₁]) (by simp [h₂])
  have hnl : c a d ≠ .lt :=
    transOn_ge_trans h pa pb pd (by simp [h₁]) (by simp [h₂])
  cases hc : c a d <;> simp_all

/-- Weakening the predicate of a TransOn. -/
theorem transOn_mono {P Q : α → Prop} {c} (h : TransOn Q c)
    (hpq : ∀ a, P a → Q a) : TransOn P c :=
  ⟨h.1, fun a b d pa pb pd => h.2 a b d (hpq a pa) (hpq b pb) (hpq d pd)⟩

/-- A comparator pulled back along a key function. -/
theorem transOn_key {Q : β → Prop} {c : β → β → Ordering} (f : α → β)
    (h : TransOn Q c) : TransOn (fun a => Q (f a)) (fun a b => c (f a) (f b)) :=
  ⟨fun a b => h.1 (f a) (f b),
   fun a b d pa pb pd => h.2 (f a) (f b) (f d) pa pb pd⟩

/-- Lexicographic combination of two comparators. -/
theorem transOn_lex {P : α → Prop} {c₁ c₂ : α → α → Ordering}
    (h₁ : TransOn P c₁) (h₂ : TransOn P c₂) :
    TransOn P (fun a b => (c₁ a b).then (c₂ a b)) := by
  constructor
  · intro a b
    show (c₁ a b).then (c₂ a b) = ((c₁ b a).then (c₂ b a)).swap
    rw [h₁.1 a b, h₂.1 a b]
    cases c₁ b a <;> cases c₂ b a <;> rfl
  · intro a b d pa pb pd hab hbd
    rw [then_ne_gt] at hab hbd ⊢
    rcases hab with hab | ⟨hab, hab₂⟩
    · rcases hbd with hbd | ⟨hbd, _⟩
      · exact Or.inl (transOn_lt_le_trans h₁ pa pb pd hab (by simp [hbd]))
      · exact Or.inl (transOn_lt_le_trans h₁ pa pb pd hab (by simp [hbd]))
    · rcases hbd with hbd | ⟨hbd, hbd₂⟩
      · exact Or.inl (transOn_le_lt_trans h₁ pa pb pd (by simp [hab]) hbd)
      · exact Or.inr ⟨transOn_eq_trans h₁ pa pb pd hab hbd,
          h₂.2 a b d pa pb pd hab₂ hbd₂⟩

theorem nCmp_lt_iff {a b : Nat} : nCmp a b = .lt ↔ a < b := by
  unfold nCmp; split_ifs <;> simp_all <;> omega

theorem nCmp_eq_iff {a b : Nat} : nCmp a b = .eq ↔ a = b := by
  unfold nCmp; split_ifs <;> simp_all <;> omega

theorem nCmp_gt_iff {a b : Nat} : nCmp a b = .gt ↔ b < a := by
  unfold nCmp; split_ifs <;> simp_all <;> omega

theorem transOn_nCmp : TransOn (fun _ : Nat => True) nCmp := by
  constructor
  · intro a b
    unfold nCmp; split_ifs <;> simp [Ordering.swap] <;> omega
  · intro a b d _ _ _ hab hbd
    rw [Ne, nCmp_gt_iff] at *
    omega

/-- Pointwise lexicographic comparison of lists is oriented and
transitive when the element comparator is. -/
theorem transOn_listCmp {c : α → α → Ordering}
    (h : TransOn (fun _ : α => True) c) :
    TransOn (fun _ : List α => True) (listCmp c) := by
  constructor
  · intro as bs
    induction as generalizing bs with
    | nil => cases bs <;> rfl
    | cons a as ih =>
      cases bs with
      | nil => rfl
      | cons b bs =>
        show (c a b).then (listCmp c as bs) = ((c b a).then (listCmp c bs as)).swap
        rw [h.1 a b, ih bs]
        cases c b a <;> cases listCmp c bs as <;> rfl
  · intro as bs ds _ _ _ hab hbd
    induction as generalizing bs ds with
    | nil =>
      cases ds with
      | nil => simp [listCmp]
      | cons d ds => simp [listCmp]
    | cons a as ih =>
      cases bs with
      | nil => simp [listCmp] at hab
      | cons b bs =>
        cases ds with
        | nil => simp [listCmp] at hbd
        | cons d ds =>
          have hab' : (c a b).then (listCmp c as bs) ≠ .gt := hab
          have hbd' : (c b d).then (listCmp c bs ds) ≠ .gt := hbd
          show (c a d).then (listCmp c as ds) ≠ .gt
          rw [then_ne_gt] at hab' hbd' ⊢
          rcases hab' with hab' | ⟨hab', hab₂⟩
          · rcases hbd' with hbd' | ⟨hbd', _⟩
            · exact Or.inl (transOn_lt_le_trans h trivial trivial trivial hab' (by simp [hbd']))
            · exact Or.inl (transOn_lt_le_trans h trivial trivial trivial hab' (by simp [hbd']))
          · rcases hbd' with hbd' | ⟨hbd', hbd₂⟩
            · exact Or.inl (transOn_le_lt_trans h trivial trivial trivial (by simp [hab']) hbd')
            · exact Or.inr ⟨transOn_eq_trans h trivial trivial trivial hab' hbd', ih bs ds hab₂ hbd₂⟩

theorem then_eq_right {x : Ordering} : x.then .eq = x := by
  cases x <;> rfl

theorem then_eq_left {x : Ordering} : Ordering.eq.then x = x := rfl

theorem then_lt_left {x : Ordering} : Ordering.lt.then x = .lt := rfl

theorem then_gt_left {x : Ordering} : Ordering.gt.then x = .gt := rfl

theorem then_swap {x y : Ordering} : (x.then y).swap = x.swap.then y.swap := by
  cases x <;> cases y <;> rfl

theorem transOn_chCmp : TransOn (fun _ : Char => True) chCmp :=
  transOn_key (fun c : Char => c.toNat) transOn_nCmp

theorem transOn_clCmp : TransOn (fun _ : List Char => True) clCmp :=
  transOn_listCmp transOn_chCmp

theorem clCmp_refl (cs : List Char) : clCmp cs cs = .eq :=
  transOn_refl transOn_clCmp cs

theorem idCmp_self (s : String) : idCmp s s = .eq := by
  unfold idCmp; rw [if_pos rfl]

theorem idCmp_empty_lt {y : String} (hy : y ≠ "") : idCmp "" y = .lt := by
  unfold idCmp
  rw [if_neg (fun h => hy h.symm), if_pos rfl]

theorem idCmp_gt_empty {x : String} (hx : x ≠ "") : idCmp x "" = .gt := by
  unfold idCmp
  rw [if_neg hx, if_neg hx, if_pos rfl]

theorem nCmp_self (n : Nat) : nCmp n n = .eq := nCmp_eq_iff.mpr rfl

/-- comparePrePart is the lexicographic comparison of the three keys. -/
theorem idCmp_key (s o : String) :
    idCmp s o = (nCmp (idRank s) (idRank o)).then
      ((nCmp (idNumVal s) (idNumVal o)).then (clCmp (idStrVal s) (idStrVal o))) := by
  by_cases hso : s = o
  · subst hso
    simp [idCmp_self, nCmp_self, clCmp_refl, Ordering.then]
  · by_cases hs : s = ""
    · subst hs
      have ho : o ≠ "" := fun h => hso h.symm
      have hr : idRank o = 1 ∨ idRank o = 2 := by
        unfold idRank; rw [if_neg ho]; cases isNumId o <;> simp
      rw [idCmp_empty_lt ho]
      have h0 : idRank "" = 0 := by unfold idRank; rw [if_pos rfl]
      rcases hr with hr | hr <;>
        simp [h0, hr, nCmp, Ordering.then]
    · by_cases ho : o = ""
      · subst ho
        have hr : idRank s = 1 ∨ idRank s = 2 := by
          unfold idRank; rw [if_neg hs]; cases isNumId s <;> simp
        rw [idCmp_gt_empty hs]
        have h0 : idRank "" = 0 := by unfold idRank; rw [if_pos rfl]
        rcases hr with hr | hr <;>
          simp [h0, hr, nCmp, Ordering.then]
      · have hlhs : idCmp s o =
            match isNumId s, isNumId o with
            | true, true => nCmp (digitsToNat s.data) (digitsToNat o.data)
            | true, false => .lt
            | false, true => .gt
            | false, false => strCmp s o := by
          unfold idCmp
          rw [if_neg hso, if_neg hs, if_neg ho]
        have hce : clCmp ([] : List Char) [] = .eq := rfl
        have h12 : nCmp 1 2 = .lt := by decide
        have h21 : nCmp 2 1 = .gt := by decide
        cases hns : isNumId s <;> cases hno : isNumId o <;> rw [hlhs] <;>
          simp only [hns, hno] <;>
          simp [idRank, idNumVal, idStrVal, hs, ho, hns, hno, nCmp_self, hce,
            then_eq_right, then_eq_left, strCmp, h12, h21,
            then_lt_left, then_gt_left]

theorem transOn_idCmp : TransOn (fun _ : String => True) idCmp := by
  have he : idCmp = fun s o =>
      (nCmp (idRank s) (idRank o)).then
        ((nCmp (idNumVal s) (idNumVal o)).then (clCmp (idStrVal s) (idStrVal o))) :=
    funext₂ idCmp_key
  rw [he]
  exact transOn_lex (transOn_key idRank transOn_nCmp)
    (transOn_lex (transOn_key idNumVal transOn_nCmp) (transOn_key idStrVal transOn_clCmp))

theorem preListCmp_symm : ∀ as bs : List String, preListCmp as bs = (preListCmp bs as).swap
  | [], [] => by simp [preListCmp, Ordering.swap]
  | [], y :: ys => by
    simp only [preListCmp]
    rw [transOn_idCmp.1 "" y, preListCmp_symm [] ys, then_swap]
  | x :: xs, [] => by
    simp only [preListCmp]
    rw [transOn_idCmp.1 x "", preListCmp_symm xs [], then_swap]
  | x :: xs, y :: ys => by
    simp only [preListCmp]
    rw [transOn_idCmp.1 x y, preListCmp_symm xs ys, then_swap]

/-- On clean lists, the padded comparison agrees with plain list
lexicographic comparison. -/
theorem preListCmp_clean : ∀ as bs : List String, cleanIds as → cleanIds bs →
    preListCmp as bs = listCmp idCmp as bs
  | [], [], _, _ => by simp [preListCmp, listCmp]
  | [], y :: ys, _, hb => by
    simp only [preListCmp, listCmp]
    rw [idCmp_empty_lt (hb y (List.mem_cons_self y ys))]
    rfl
  | x :: xs, [], ha, _ => by
    simp only [preListCmp, listCmp]
    rw [idCmp_gt_empty (ha x (List.mem_cons_self x xs))]
    rfl
  | x :: xs, y :: ys, ha, hb => by
    simp only [preListCmp, listCmp]
    rw [preListCmp_clean xs ys (fun a haa => ha a (List.mem_cons_of_mem x haa))
      (fun b hbb => hb b (List.mem_cons_of_mem y hbb))]

theorem cmpPre_symm (as bs : List String) : cmpPre as bs = (cmpPre bs as).swap := by
  cases as with
  | nil =>
    cases bs with
    | nil => rfl
    | cons b bs => rfl
  | cons a as =>
    cases bs with
    | nil => rfl
    | cons b bs => exact preListCmp_symm (a :: as) (b :: bs)

theorem transOn_cmpPre : TransOn cleanIds cmpPre := by
  constructor
  · exact cmpPre_symm
  · intro as bs ds pa pb pd hab hbd
    cases as with
    | nil =>
      cases ds with
      | nil => simp [cmpPre]
      | cons d ds =>
        cases bs with
        | nil => exact hbd
        | cons b bs => simp [cmpPre] at hab
    | cons a as =>
      cases ds with
      | nil => simp [cmpPre]
      | cons d ds =>
        cases bs with
        | nil => simp [cmpPre] at hbd
        | cons b bs =>
          have h1 : preListCmp (a :: as) (b :: bs) ≠ .gt := hab
          have h2 : preListCmp (b :: bs) (d :: ds) ≠ .gt := hbd
          show preListCmp (a :: as) (d :: ds) ≠ .gt
          rw [preListCmp_clean _ _ pa pb] at h1
          rw [preListCmp_clean _ _ pb pd] at h2
          rw [preListCmp_clean _ _ pa pd]
          exact (transOn_listCmp transOn_idCmp).2 _ _ _ trivial trivial trivial h1 h2

theorem vCmp_symm (a b : Version) : vCmp a b = (vCmp b a).swap := by
  unfold vCmp
  rw [transOn_nCmp.1 a.major b.major, transOn_nCmp.1 a.minor b.minor,
    transOn_nCmp.1 a.patch b.patch, cmpPre_symm a.pre b.pre,
    then_swap, then_swap, then_swap]

theorem transOn_vCmp : TransOn wfV vCmp := by
  have he : vCmp = fun a b =>
      (nCmp a.major b.major).then
        ((nCmp a.minor b.minor).then
          ((nCmp a.patch b.patch).then (cmpPre a.pre b.pre))) := rfl
  rw [he]
  have hmaj : TransOn wfV (fun a b : Version => nCmp a.major b.major) :=
    transOn_mono (transOn_key Version.major transOn_nCmp) (fun _ _ => trivial)
  have hmin : TransOn wfV (fun a b : Version => nCmp a.minor b.minor) :=
    transOn_mono (transOn_key Version.minor transOn_nCmp) (fun _ _ => trivial)
  have hpat : TransOn wfV (fun a b : Version => nCmp a.patch b.patch) :=
    transOn_mono (transOn_key Version.patch transOn_nCmp) (fun _ _ => trivial)
  have hpre : TransOn wfV (fun a b : Version => cmpPre a.pre b.pre) :=
    transOn_key Version.pre transOn_cmpPre
  exact transOn_lex hmaj (transOn_lex hmin (transOn_lex hpat hpre))

theorem validIds_clean {cs : List Char} (h : validIds cs = true) :
    cleanIds ((splitOnChar '.' cs).map String.mk) := by
  intro p hp hemp
  rw [List.mem_map] at hp
  obtain ⟨idc, hidc, rfl⟩ := hp
  unfold validIds at h
  rw [List.all_eq_true] at h
  have hv := h idc hidc
  have hdata : idc = [] := congrArg String.data hemp
  subst hdata
  simp at hv

theorem mkVersion_nopre_wf {s : String} {nums : List Nat} {meta : List Char} :
    wfV (mkVersion s nums [] meta) := by
  intro x hx
  simp [mkVersion] at hx

/-- Every version produced by the tail parser is well formed. -/
theorem parsePreMeta_wf {s : String} {nums : List Nat} {rest : List Char} {v : Version}
    (h : parsePreMeta s nums rest = some v) : wfV v := by
  unfold parsePreMeta at h
  split at h
  · cases h
    exact mkVersion_nopre_wf
  · rename_i r1
    split at h
    · exact absurd h (by simp)
    · rename_i hval
      simp only [Bool.not_eq_true', Bool.not_eq_false] at hval
      split at h
      · cases h
        exact validIds_clean hval
      · split at h
        · cases h
          exact validIds_clean hval
        · exact absurd h (by simp)
      · exact absurd h (by simp)
  · split at h
    · cases h
      exact mkVersion_nopre_wf
    · exact absurd h (by simp)
  · exact absurd h (by simp)

/-- Every version produced by parseVersion is well formed. -/
theorem parse_wf {s : String} {v : Version} (h : parseVersion s = some v) : wfV v := by
  unfold parseVersion at h
  split at h
  · exact absurd h (by simp)
  · split at h
    · exact absurd h (by simp)
    · exact parsePreMeta_wf h

theorem transOn_rawCmp : TransOn (fun _ : String => True) rawCmp := by
  constructor
  · intro a b
    unfold rawCmp
    cases parseVersion a <;> cases parseVersion b
    · rfl
    · rfl
    · rfl
    · exact vCmp_symm _ _
  · intro a b d _ _ _ hab hbd
    unfold rawCmp at hab hbd ⊢
    cases ha : parseVersion a <;> cases hb : parseVersion b <;> cases hd : parseVersion d <;>
      rw [ha, hb] at hab <;> rw [hb, hd] at hbd <;> simp_all
    exact transOn_vCmp.2 _ _ _ (parse_wf ha) (parse_wf hb) (parse_wf hd) hab hbd

theorem descGE_total : IsTotal String descGE :=
  ⟨fun a b => by
    unfold descGE
    rcases hc : rawCmp a b with _ | _ | _
    · right
      rw [transOn_lt_iff_gt transOn_rawCmp] at hc
      simp [hc]
    · left; simp [hc]
    · left; simp [hc]⟩

theorem descGE_trans : IsTrans String descGE :=
  ⟨fun a b c hab hbc =>
    transOn_ge_trans transOn_rawCmp trivial trivial trivial hab hbc⟩

/-! ### Supporting lemmas for the claims -/

/-- When no rule's constraint contains the Karpenter version, the rule
loop falls through to false. -/
theorem checkRules_false : ∀ (rules : List K8sRange) (kv k8sv : Version),
    (∀ rule ∈ rules, ruleMatches rule kv = false) →
    checkRules rules kv k8sv = false
  | [], _, _, _ => rfl
  | rule :: rest, kv, k8sv, h => by
    have hr := h rule (List.mem_cons_self rule rest)
    unfold ruleMatches at hr
    unfold checkRules
    cases hc : parseConstraint rule.karpenterConstraint with
    | none =>
      exact checkRules_false rest kv k8sv (fun r hm => h r (List.mem_cons_of_mem rule hm))
    | some c =>
      rw [hc] at hr
      simp at hr
      simp only [hr, Bool.false_eq_true, if_false]
      exact checkRules_false rest kv k8sv (fun r hm => h r (List.mem_cons_of_mem rule hm))

/-! ### Claim C1 -/

/-- C1, counterexample: the claim asserts IsCompatible("1.5.0","1.31.0")
is false, but Karpenter 1.5.0 matches the first matrix rule
(>= 1.4.0, < 2.0.0), whose Kubernetes range 1.29.0–1.33.99 contains
1.31.0, so the call returns true. -/
theorem c1_counterexample :
    ¬(IsCompatible "1.3.0" "1.31.0" = true ∧ IsCompatible "1.5.0" "1.31.0" = false) := by
  decide

/-- C1, amended: with the embedded compatibility matrix,
IsCompatible("1.3.0","1.31.0") returns true and
IsCompatible("1.5.0","1.31.0") also returns true. -/
theorem c1_amended :
    IsCompatible "1.3.0" "1.31.0" = true ∧ IsCompatible "1.5.0" "1.31.0" = true := by
  decide

/-! ### Claim C2 -/

/-- C2, counterexample: the spec's normalisation (one function on both
inputs, stripping "-"/"+" suffixes) disagrees with the code.  For the
cluster version "1.29.0-eks-1" the code's normalise keeps the suffix, the
parsed version carries a prerelease and compares below the rule's floor
1.29.0, so IsCompatible("1.4.0","1.29.0-eks-1") is false, while the
spec-described normalisation strips the suffix and yields true. -/
theorem c2_counterexample :
    IsCompatible "1.4.0" "1.29.0-eks-1" = false ∧
    specIsCompatible "1.4.0" "1.29.0-eks-1" = true := by
  decide

/-- C2, amended: in IsCompatible both inputs have a leading "v" accepted
(the Karpenter side by TrimPrefix, the cluster side inside normalise),
and the cluster version alone is zero-filled to three components by
normalise; "-"/"+" suffixes are NOT stripped by either path, so an
otherwise in-range cluster version with a "-" suffix parses as a
prerelease and fails the range check. -/
theorem c2_amended :
    IsCompatible "v1.3.0" "1.31.0" = true ∧
    IsCompatible "1.3.0" "v1.31.0" = true ∧
    IsCompatible "1.3.0" "1.31" = true ∧
    IsCompatible "1.3" "1.31.0" = true ∧
    normalise "1.31" = "1.31.0" ∧
    trimV "v1.3.0" = "1.3.0" ∧
    normalise "1.29.0-eks-1" = "1.29.0-eks-1" ∧
    IsCompatible "1.4.0" "1.29.0-eks-1" = false := by
  decide

/-! ### Claim C3 -/

/-- C3: IsCompatible fails closed — false whenever either input fails to
parse (the controller version after its "v"-strip, the cluster version
after normalise), false whenever no matrix rule's constraint contains the
parsed controller version, and in particular false on the two concrete
fixtures from the spec. -/
theorem c3_fail_closed :
    (∀ karp k8s : String,
      parseVersion (trimV karp) = none ∨ parseVersion (normalise k8s) = none →
      IsCompatible karp k8s = false) ∧
    (∀ (karp k8s : String) (kv : Version),
      parseVersion (trimV karp) = some kv →
      (∀ rule ∈ compatMatrix, ruleMatches rule kv = false) →
      IsCompatible karp k8s = false) ∧
    IsCompatible "not-a-version" "1.30.0" = false ∧
    IsCompatible "1.4.0" "garbage" = false := by
  refine ⟨?_, ?_, by decide, by decide⟩
  · intro karp k8s h
    unfold IsCompatible
    rcases h with h | h
    · rw [h]
    · rw [h]
      cases parseVersion (trimV karp) <;> rfl
  · intro karp k8s kv hkv hrules
    unfold IsCompatible
    rw [hkv]
    cases hc : parseVersion (normalise k8s) with
    | none => rfl
    | some k8sv => exact checkRules_false compatMatrix kv k8sv hrules

/-- C3, witness: both fail-closed paths at concrete inputs — an
unparseable controller version, and the parseable controller version
9.9.9 that no matrix rule covers. -/
theorem c3_witness :
    IsCompatible "zz" "1.30.0" = false ∧ IsCompatible "9.9.9" "1.30.0" = false := by
  constructor
  · exact c3_fail_closed.1 "zz" "1.30.0" (Or.inl (by decide))
  · exact c3_fail_closed.2.1 "9.9.9" "1.30.0"
      { major := 9, minor := 9, patch := 9, pre := [], metadata := "", original := "9.9.9" }
      (by decide) (by decide)

/-! ### Sizing lemmas (claims C7, C8, C10) -/

/-- cpuSizes never returns an empty list (the fallback guarantees it). -/
theorem cpuSizes_ne_nil (m : Int) : cpuSizes m ≠ [] := by
  unfold cpuSizes
  split
  · simp
  · rename_i hne
    rw [Bool.not_eq_true, List.isEmpty_eq_false] at hne
    exact hne

theorem buildAWS_MinNodeCPU (r : Recommendation) (p : WorkloadProfile)
    (w : WorkloadType) (m : OptimizationMode) :
    (buildAWS r p w m).MinNodeCPU = r.MinNodeCPU := by
  unfold buildAWS
  split_ifs <;> rfl

theorem buildAzure_MinNodeCPU (r : Recommendation) (w : WorkloadType)
    (m : OptimizationMode) : (buildAzure r w m).MinNodeCPU = r.MinNodeCPU := by
  unfold buildAzure
  split_ifs <;> rfl

theorem buildGCP_MinNodeCPU (r : Recommendation) (w : WorkloadType)
    (m : OptimizationMode) : (buildGCP r w m).MinNodeCPU = r.MinNodeCPU := by
  unfold buildGCP
  split_ifs <;> rfl

theorem buildAWS_MinNodeMiB (r : Recommendation) (p : WorkloadProfile)
    (w : WorkloadType) (m : OptimizationMode) :
    (buildAWS r p w m).MinNodeMiB = r.MinNodeMiB := by
  unfold buildAWS
  split_ifs <;> rfl

theorem buildAzure_MinNodeMiB (r : Recommendation) (w : WorkloadType)
    (m : OptimizationMode) : (buildAzure r w m).MinNodeMiB = r.MinNodeMiB := by
  unfold buildAzure
  split_ifs <;> rfl

theorem buildGCP_MinNodeMiB (r : Recommendation) (w : WorkloadType)
    (m : OptimizationMode) : (buildGCP r w m).MinNodeMiB = r.MinNodeMiB := by
  unfold buildGCP
  split_ifs <;> rfl

/-- The provider dispatch never touches the sizing hints. -/
theorem Build_MinNodeCPU (p : WorkloadProfile) (mode : OptimizationMode)
    (prov : Provider) : (Build p mode prov).MinNodeCPU = minCPU p.MaxPodCPUm := by
  unfold Build
  split_ifs <;>
    simp [buildAWS_MinNodeCPU, buildAzure_MinNodeCPU, buildGCP_MinNodeCPU]

theorem Build_MinNodeMiB (p : WorkloadProfile) (mode : OptimizationMode)
    (prov : Provider) : (Build p mode prov).MinNodeMiB = minMemMiB p.MaxPodMemMiB := by
  unfold Build
  split_ifs <;>
    simp [buildAWS_MinNodeMiB, buildAzure_MinNodeMiB, buildGCP_MinNodeMiB]

/-- minCPU is exactly the snap-up of the 20%-headroom demand into the
fixed vCPU buckets. -/
theorem minCPU_snap (m : Int) : minCPU m = snapUp cpuBuckets 16 (neededCPU m) := by
  unfold minCPU snapUp cpuBuckets
  by_cases hm : m = 0
  · subst hm
    rw [if_pos rfl]
    have h0 : neededCPU 0 = 0 := by decide
    rw [h0]
    simp [List.find?]
  · rw [if_neg hm]
    by_cases h2 : neededCPU m ≤ 2
    · have hh : (if neededCPU m ≤ 1 then (2 : Int) else if neededCPU m ≤ 2 then 2
          else if neededCPU m ≤ 4 then 4 else if neededCPU m ≤ 8 then 8 else 16) = 2 := by
        split_ifs <;> omega
      rw [hh]
      simp [List.find?, h2]
    · by_cases h4 : neededCPU m ≤ 4
      · have hh : (if neededCPU m ≤ 1 then (2 : Int) else if neededCPU m ≤ 2 then 2
            else if neededCPU m ≤ 4 then 4 else if neededCPU m ≤ 8 then 8 else 16) = 4 := by
          split_ifs <;> omega
        rw [hh]
        simp [List.find?, h2, h4]
      · by_cases h8 : neededCPU m ≤ 8
        · have hh : (if neededCPU m ≤ 1 then (2 : Int) else if neededCPU m ≤ 2 then 2
              else if neededCPU m ≤ 4 then 4 else if neededCPU m ≤ 8 then 8 else 16) = 8 := by
            split_ifs <;> omega
          rw [hh]
          simp [List.find?, h2, h4, h8]
        · have h16 : ¬ neededCPU m ≤ 1 := by omega
          have hh : (if neededCPU m ≤ 1 then (2 : Int) else if neededCPU m ≤ 2 then 2
              else if neededCPU m ≤ 4 then 4 else if neededCPU m ≤ 8 then 8 else 16)
              = if neededCPU m ≤ 16 then 16 else 16 := by
            split_ifs <;> omega
          rw [hh]
          by_cases h16b : neededCPU m ≤ 16 <;> simp [List.find?, h2, h4, h8, h16b]

/-- minMemMiB is exactly the snap-up of the 25%-headroom demand into the
fixed memory buckets. -/
theorem minMemMiB_snap (m : Int) :
    minMemMiB m = snapUp memBuckets 32768 (neededMemMiB m) := by
  unfold minMemMiB snapUp memBuckets
  by_cases hm : m = 0
  · subst hm
    rw [if_pos rfl]
    have h0 : neededMemMiB 0 = 0 := by decide
    rw [h0]
    simp [List.find?]
  · rw [if_neg hm]
    by_cases h2 : neededMemMiB m ≤ 2048
    · have hh : (if neededMemMiB m ≤ 1024 then (2048 : Int)
          else if neededMemMiB m ≤ 2048 then 2048 else if neededMemMiB m ≤ 4096 then 4096
          else if neededMemMiB m ≤ 8192 then 8192 else if neededMemMiB m ≤ 16384 then 16384
          else 32768) = 2048 := by
        split_ifs <;> omega
      rw [hh]
      simp [List.find?, h2]
    · by_cases h4 : neededMemMiB m ≤ 4096
      · have hh : (if neededMemMiB m ≤ 1024 then (2048 : Int)
            else if neededMemMiB m ≤ 2048 then 2048 else if neededMemMiB m ≤ 4096 then 4096
            else if neededMemMiB m ≤ 8192 then 8192 else if neededMemMiB m ≤ 16384 then 16384
            else 32768) = 4096 := by
          split_ifs <;> omega
        rw [hh]
        simp [List.find?, h2, h4]
      · by_cases h8 : neededMemMiB m ≤ 8192
        · have hh : (if neededMemMiB m ≤ 1024 then (2048 : Int)
              else if neededMemMiB m ≤ 2048 then 2048 else if neededMemMiB m ≤ 4096 then 4096
              else if neededMemMiB m ≤ 8192 then 8192 else if neededMemMiB m ≤ 16384 then 16384
              else 32768) = 8192 := by
            split_ifs <;> omega
          rw [hh]
          simp [List.find?, h2, h4, h8]
        · by_cases h16 : neededMemMiB m ≤ 16384
          · have hh : (if neededMemMiB m ≤ 1024 then (2048 : Int)
                else if neededMemMiB m ≤ 2048 then 2048 else if neededMemMiB m ≤ 4096 then 4096
                else if neededMemMiB m ≤ 8192 then 8192 else if neededMemMiB m ≤ 16384 then 16384
                else 32768) = 16384 := by
              split_ifs <;> omega
            rw [hh]
            simp [List.find?, h2, h4, h8, h16]
          · have hh : (if neededMemMiB m ≤ 1024 then (2048 : Int)
                else if neededMemMiB m ≤ 2048 then 2048 else if neededMemMiB m ≤ 4096 then 4096
                else if neededMemMiB m ≤ 8192 then 8192 else if neededMemMiB m ≤ 16384 then 16384
                else 32768) = if neededMemMiB m ≤ 32768 then (32768 : Int) else 32768 := by
              split_ifs <;> omega
            rw [hh]
            by_cases h32 : neededMemMiB m ≤ 32768 <;>
              simp [List.find?, h2, h4, h8, h16, h32]

/-- A snapped value is always one of the buckets (when the fallback is). -/
theorem snapUp_mem (bs : List Int) (fb x : Int) (hfb : fb ∈ bs) :
    snapUp bs fb x ∈ bs := by
  unfold snapUp
  cases h : bs.find? (fun b => x ≤ b) with
  | none => exact hfb
  | some b => exact List.mem_of_find?_eq_some h

/-- minCPU only ever returns one of the fixed buckets. -/
theorem minCPU_mem (m : Int) : minCPU m ∈ cpuBuckets := by
  rw [minCPU_snap]
  exact snapUp_mem _ _ _ (by decide)

/-- minMemMiB only ever returns one of the fixed buckets. -/
theorem minMemMiB_mem (m : Int) : minMemMiB m ∈ memBuckets := by
  rw [minMemMiB_snap]
  exact snapUp_mem _ _ _ (by decide)

/-! ### Claim C7 -/

/-- C7, counterexample: for an unsupported provider the claim asserts all
selection arrays are empty, but CPUSizes is filled from the sizing hints
before the provider switch and is never empty. -/
theorem c7_counterexample :
    (Build pEmpty ModeBalanced ProviderUnknown).CPUSizes
      = ["2", "4", "8", "16", "32", "48", "64"] ∧
    (Build pEmpty ModeBalanced ProviderUnknown).CPUSizes ≠ [] := by
  decide

/-- C7, amended: Build is total — every (profile, mode, provider) yields a
Recommendation — and when the provider is not aws/azure/gcp the result
carries only the generic-guidance reasoning string and empty instance
families, capacity types and architectures, while CPUSizes (set before
the provider switch) is non-empty. -/
theorem c7_generic_guidance (p : WorkloadProfile) (mode : OptimizationMode)
    (prov : Provider) (ha : prov ≠ ProviderAWS) (hz : prov ≠ ProviderAzure)
    (hg : prov ≠ ProviderGCP) :
    (Build p mode prov).Reasoning = ["Provider unknown — showing generic guidance only"] ∧
    (Build p mode prov).InstanceFamilies = [] ∧
    (Build p mode prov).CapacityTypes = [] ∧
    (Build p mode prov).Architectures = [] ∧
    (Build p mode prov).CPUSizes = cpuSizes (minCPU p.MaxPodCPUm) ∧
    (Build p mode prov).CPUSizes ≠ [] := by
  unfold Build
  rw [if_neg ha, if_neg hz, if_neg hg]
  exact ⟨rfl, rfl, rfl, rfl, rfl, cpuSizes_ne_nil _⟩

/-- C7, witness: the amended claim at the all-zero profile, balanced
mode, unknown provider. -/
theorem c7_witness :
    (Build pEmpty ModeBalanced ProviderUnknown).Reasoning
      = ["Provider unknown — showing generic guidance only"] ∧
    (Build pEmpty ModeBalanced ProviderUnknown).InstanceFamilies = [] ∧
    (Build pEmpty ModeBalanced ProviderUnknown).CPUSizes ≠ [] :=
  ⟨(c7_generic_guidance pEmpty ModeBalanced ProviderUnknown
      (by decide) (by decide) (by decide)).1,
   (c7_generic_guidance pEmpty ModeBalanced ProviderUnknown
      (by decide) (by decide) (by decide)).2.1,
   (c7_generic_guidance pEmpty ModeBalanced ProviderUnknown
      (by decide) (by decide) (by decide)).2.2.2.2.2⟩

/-! ### Claim C8 -/

/-- C8: for every profile, mode and provider, Build's minimum per-node
vCPU is the largest single-pod CPU request scaled by the fixed 20%
headroom factor (computed exactly: needed = trunc(3·m / 2500)) and
snapped up to the nearest bucket of the fixed ascending set {2,4,8,16}
(the largest bucket capping larger demands), with a floor of 2; the
minimum memory likewise uses the fixed 25% factor
(needed = trunc(5·m / 4)) over the buckets {2048,...,32768} with a floor
of 2048 MiB. -/
theorem c8_sizing (p : WorkloadProfile) (mode : OptimizationMode) (prov : Provider) :
    (Build p mode prov).MinNodeCPU = snapUp cpuBuckets 16 (neededCPU p.MaxPodCPUm) ∧
    (Build p mode prov).MinNodeMiB = snapUp memBuckets 32768 (neededMemMiB p.MaxPodMemMiB) ∧
    2 ≤ (Build p mode prov).MinNodeCPU ∧
    2048 ≤ (Build p mode prov).MinNodeMiB := by
  refine ⟨?_, ?_, ?_, ?_⟩
  · rw [Build_MinNodeCPU, minCPU_snap]
  · rw [Build_MinNodeMiB, minMemMiB_snap]
  · rw [Build_MinNodeCPU]
    have h := minCPU_mem p.MaxPodCPUm
    simp [cpuBuckets] at h
    rcases h with h | h | h | h <;> omega
  · rw [Build_MinNodeMiB]
    have h := minMemMiB_mem p.MaxPodMemMiB
    simp [memBuckets] at h
    rcases h with h | h | h | h | h <;> omega

/-! ### Claim C10 -/

/-- C10: node sizing is hard-capped — for every profile (however large
the observed requests), Build's MinNodeCPU is one of {2,4,8,16} and
MinNodeMiB is one of {2048,4096,8192,16384,32768}. -/
theorem c10_buckets (p : WorkloadProfile) (mode : OptimizationMode) (prov : Provider) :
    (Build p mode prov).MinNodeCPU ∈ cpuBuckets ∧
    (Build p mode prov).MinNodeMiB ∈ memBuckets := by
  constructor
  · rw [Build_MinNodeCPU]
    exact minCPU_mem _
  · rw [Build_MinNodeMiB]
    exact minMemMiB_mem _

/-! ### Claim C9 -/

/-- C9, counterexample: a profile with pods and CPU-only requests (so a
memory-per-core ratio of 0, which is below 2.0), without GPU — the claim
says it is classified cpu, but the code's cpu branch also requires the
ratio to be strictly positive, so it falls through to general. -/
theorem c9_counterexample :
    pCpuOnly.HasGPU = false ∧ pCpuOnly.NoRequests = false ∧
    pCpuOnly.TotalPods ≠ 0 ∧ ¬ pCpuOnly.MemPerCPUGiB > 4 ∧
    pCpuOnly.MemPerCPUGiB < 2 ∧
    ClassifyWorkload pCpuOnly = WorkloadGeneral ∧
    ClassifyWorkload pCpuOnly ≠ WorkloadCPU := by
  refine ⟨rfl, rfl, by decide, by decide, by decide, by decide, by decide⟩

/-- C9, amended: ClassifyWorkload follows exactly this decision order —
GPU flag → gpu; otherwise no data → unknown; otherwise ratio > 4.0 →
memory; otherwise ratio < 2.0 AND ratio > 0 → cpu; otherwise batch flag →
batch; otherwise general.  In particular a GPU-less profile with pods and
requests whose ratio lies strictly between 0 and 2.0 is classified cpu. -/
theorem c9_decision_order (p : WorkloadProfile) :
    (p.HasGPU = true → ClassifyWorkload p = WorkloadGPU) ∧
    (p.HasGPU = false → (p.NoRequests = true ∨ p.TotalPods = 0) →
      ClassifyWorkload p = WorkloadUnknown) ∧
    (p.HasGPU = false → p.NoRequests = false → p.TotalPods ≠ 0 →
      p.MemPerCPUGiB > 4 → ClassifyWorkload p = WorkloadMemory) ∧
    (p.HasGPU = false → p.NoRequests = false → p.TotalPods ≠ 0 →
      ¬ p.MemPerCPUGiB > 4 → 0 < p.MemPerCPUGiB → p.MemPerCPUGiB < 2 →
      ClassifyWorkload p = WorkloadCPU) ∧
    (p.HasGPU = false → p.NoRequests = false → p.TotalPods ≠ 0 →
      ¬ p.MemPerCPUGiB > 4 → ¬(0 < p.MemPerCPUGiB ∧ p.MemPerCPUGiB < 2) →
      p.HasBatchJobs = true → ClassifyWorkload p = WorkloadBatch) ∧
    (p.HasGPU = false → p.NoRequests = false → p.TotalPods ≠ 0 →
      ¬ p.MemPerCPUGiB > 4 → ¬(0 < p.MemPerCPUGiB ∧ p.MemPerCPUGiB < 2) →
      p.HasBatchJobs = false → ClassifyWorkload p = WorkloadGeneral) := by
  unfold ClassifyWorkload
  refine ⟨?_, ?_, ?_, ?_, ?_, ?_⟩
  · intro h
    rw [if_pos h]
  · intro hg hnd
    rw [if_neg (by simp [hg]), if_pos (by rcases hnd with h | h <;> simp [h])]
  · intro hg hnr hp hm
    rw [if_neg (by simp [hg]), if_neg (by simp [hnr, hp]), if_pos (by simp [hm])]
  · intro hg hnr hp hm hlo hhi
    rw [if_neg (by simp [hg]), if_neg (by simp [hnr, hp]), if_neg (by simp [hm]),
      if_pos (by simp [hlo, hhi])]
  · intro hg hnr hp hm hcpu hb
    rw [if_neg (by simp [hg]), if_neg (by simp [hnr, hp]), if_neg (by simp [hm]),
      if_neg (by
        simp
        intro h1
        by_contra hpos
        exact hcpu ⟨not_le.mp hpos, h1⟩), if_pos hb]
  · intro hg hnr hp hm hcpu hb
    rw [if_neg (by simp [hg]), if_neg (by simp [hnr, hp]), if_neg (by simp [hm]),
      if_neg (by
        simp
        intro h1
        by_contra hpos
        exact hcpu ⟨not_le.mp hpos, h1⟩), if_neg (by simp [hb])]

/-- C9, witness: the cpu branch of the amended decision order at the
concrete ratio-1 profile. -/
theorem c9_witness : ClassifyWorkload pRatioOne = WorkloadCPU :=
  (c9_decision_order pRatioOne).2.2.2.1 rfl rfl (by decide) (by decide) (by decide) (by decide)

/-! ### Claim C4 -/

/-- C4, counterexample: with a duplicated compatible candidate the output
keeps both copies, so it is not strictly descending (the two adjacent
elements compare equal, not greater). -/
theorem c4_counterexample :
    FilterCompatible "1.31.0" ["1.4.0", "1.4.0"] = ["1.4.0", "1.4.0"] ∧
    ¬ List.Pairwise (fun a b => rawCmp a b = .gt)
        (FilterCompatible "1.31.0" ["1.4.0", "1.4.0"]) := by
  constructor
  · decide
  · decide

/-- C4, amended: for inputs whose candidates all parse (on other inputs
the Go sort comparator dereferences a nil version), FilterCompatible
returns a descending — non-strictly when semver-equal candidates repeat —
sequence: each element is compatible, every compatible input element
appears in the output (the output is a permutation of the compatible
sublist, so the input is not consumed), and when no two compatible
candidates are semver-equal the sequence is strictly descending. -/
theorem c4_filter_sorted (k8s : String) (available : List String)
    (hparse : ∀ v ∈ available, (parseVersion v).isSome = true) :
    List.Sorted descGE (FilterCompatible k8s available) ∧
    (FilterCompatible k8s available).Perm
      (available.filter fun v => IsCompatible v k8s) ∧
    (∀ v ∈ FilterCompatible k8s available, IsCompatible v k8s = true) ∧
    (∀ v ∈ available, IsCompatible v k8s = true → v ∈ FilterCompatible k8s available) ∧
    (List.Pairwise (fun a b => rawCmp a b ≠ .eq)
        (available.filter fun v => IsCompatible v k8s) →
      List.Pairwise (fun a b => rawCmp a b = .gt) (FilterCompatible k8s available)) := by
  haveI := descGE_total
  haveI := descGE_trans
  have hperm : (FilterCompatible k8s available).Perm
      (available.filter fun v => IsCompatible v k8s) :=
    List.perm_insertionSort descGE _
  refine ⟨List.sorted_insertionSort descGE _, hperm, ?_, ?_, ?_⟩
  · intro v hv
    have hm := hperm.mem_iff.mp hv
    exact (List.mem_filter.mp hm).2
  · intro v hv hc
    exact hperm.mem_iff.mpr (List.mem_filter.mpr ⟨hv, hc⟩)
  · intro hne
    have hne' : List.Pairwise (fun a b => rawCmp a b ≠ .eq)
        (FilterCompatible k8s available) := by
      refine (List.Perm.pairwise_iff ?_ hperm.symm).mp hne
      intro a b hab hc
      rw [transOn_rawCmp.1 b a, swap_eq_eq] at hc
      exact hab hc
    have hsorted : List.Pairwise descGE (FilterCompatible k8s available) :=
      List.sorted_insertionSort descGE _
    have hand := List.Pairwise.and hsorted hne'
    refine hand.imp ?_
    intro a b hab
    rcases hab with ⟨h1, h2⟩
    cases hc : rawCmp a b with
    | lt => exact absurd hc h1
    | eq => exact absurd hc h2
    | gt => rfl

/-- C4, witness: the amended properties at a concrete candidate list of
distinct parseable versions. -/
theorem c4_witness :
    List.Sorted descGE (FilterCompatible "1.31.0" ["1.3.0", "1.5.0", "0.37.0"]) ∧
    (∀ v ∈ FilterCompatible "1.31.0" ["1.3.0", "1.5.0", "0.37.0"],
      IsCompatible v "1.31.0" = true) ∧
    List.Pairwise (fun a b => rawCmp a b = .gt)
      (FilterCompatible "1.31.0" ["1.3.0", "1.5.0", "0.37.0"]) := by
  have h := c4_filter_sorted "1.31.0" ["1.3.0", "1.5.0", "0.37.0"] (by decide)
  exact ⟨h.1, h.2.2.1, h.2.2.2.2 (by decide)⟩

/-! ### Schedule lemmas (claims C5, C6) -/

/-- Any schedule of slot writes leaves the length unchanged. -/
theorem foldl_writeSlot_length (env : Env) (contexts : List String) :
    ∀ (order : List Nat) (acc : List ClusterStatus),
      (order.foldl (writeSlot env contexts) acc).length = acc.length
  | [], _ => rfl
  | o :: os, acc => by
    rw [List.foldl_cons]
    rw [foldl_writeSlot_length env contexts os _]
    simp [writeSlot]

/-- After any schedule, a slot holds its own context's inspection as soon
as its index was completed, and is untouched otherwise: writes go to
disjoint pre-allocated slots, so the completion order is immaterial. -/
theorem foldl_writeSlot_getD (env : Env) (contexts : List String) :
    ∀ (order : List Nat) (acc : List ClusterStatus), acc.length = contexts.length →
    ∀ j : Nat,
      (order.foldl (writeSlot env contexts) acc).getD j zeroStatus =
        if j ∈ order ∧ j < contexts.length
        then inspectContext env (contexts.getD j "")
        else acc.getD j zeroStatus
  | [], acc, _, j => by simp
  | o :: os, acc, hlen, j => by
    rw [List.foldl_cons]
    rw [foldl_writeSlot_getD env contexts os (writeSlot env contexts acc o)
      (by simp [writeSlot, hlen]) j]
    by_cases hos : j ∈ os ∧ j < contexts.length
    · rw [if_pos hos, if_pos ⟨List.mem_cons_of_mem o hos.1, hos.2⟩]
    · rw [if_neg hos]
      by_cases hjo : j = o
      · subst hjo
        by_cases hjn : j < contexts.length
        · rw [if_pos ⟨List.mem_cons_self j os, hjn⟩]
          unfold writeSlot
          rw [List.getD_eq_getD_get?, List.get?_set_eq_of_lt _ (by omega : j < acc.length)]
          rfl
        · rw [if_neg (fun hc => hjn hc.2)]
          have hsl : (writeSlot env contexts acc j).length = acc.length := by
            simp [writeSlot]
          rw [List.getD_eq_default _ _ (by omega : acc.length ≤ j),
            List.getD_eq_default _ _ (by rw [hsl]; omega)]
      · have hnotins : ¬(j ∈ o :: os ∧ j < contexts.length) := by
          intro hc
          rcases List.mem_cons.mp hc.1 with h | h
          · exact hjo h
          · exact hos ⟨h, hc.2⟩
        rw [if_neg hnotins]
        unfold writeSlot
        rw [List.getD_eq_getD_get?, List.get?_set_ne _ _ (fun h => hjo h.symm),
          List.getD_eq_getD_get?]

/-- The field set first by inspectContext is always the inspected context. -/
theorem inspectContext_Context (env : Env) (ctx : String) :
    (inspectContext env ctx).Context = ctx := by
  cases h : withTimeout (env.getServerVersion ctx) with
  | error e => simp [inspectContext, h]
  | ok v =>
    cases h2 : env.detectKarpenter ctx with
    | error e => simp [inspectContext, h, h2]
    | ok info =>
      simp [inspectContext, h, h2]
      split_ifs <;> rfl

/-! ### Claim C5 -/

/-- C5: for every environment, every list of context names (duplicates
and failing ones included) and every completion order that finishes each
slot, the aggregator returns exactly one status per input context, the
result equals checkClusters' result (the completion order is immaterial),
and the status in slot i carries context i's name. -/
theorem c5_aggregator_shape (env : Env) (contexts : List String) (order : List Nat)
    (hcov : ∀ j, j < contexts.length → j ∈ order) :
    (runSchedule env contexts order).length = contexts.length ∧
    runSchedule env contexts order = checkClusters env contexts ∧
    (∀ j, j < contexts.length →
      ((runSchedule env contexts order).getD j zeroStatus).Context = contexts.getD j "") := by
  have hlenr : ∀ ord : List Nat, (runSchedule env contexts ord).length = contexts.length := by
    intro ord
    unfold runSchedule
    rw [foldl_writeSlot_length]
    exact List.length_replicate _ _
  have hget : ∀ (ord : List Nat), (∀ j, j < contexts.length → j ∈ ord) →
      ∀ j, j < contexts.length →
      (runSchedule env contexts ord).getD j zeroStatus
        = inspectContext env (contexts.getD j "") := by
    intro ord hc j hj
    unfold runSchedule
    rw [foldl_writeSlot_getD env contexts ord _ (List.length_replicate _ _) j,
      if_pos ⟨hc j hj, hj⟩]
  have hrange : ∀ j, j < contexts.length → j ∈ List.range contexts.length := by
    intro j hj
    exact List.mem_range.mpr hj
  refine ⟨hlenr order, ?_, ?_⟩
  · apply List.ext_getElem (by rw [hlenr order]; exact (hlenr _).symm)
    intro j hj1 hj2
    have hjn : j < contexts.length := by rw [hlenr order] at hj1; exact hj1
    rw [← List.getD_eq_getElem _ zeroStatus hj1, ← List.getD_eq_getElem _ zeroStatus hj2]
    rw [hget order hcov j hjn]
    unfold checkClusters
    rw [hget (List.range contexts.length) hrange j hjn]
  · intro j hj
    rw [hget order hcov j hj]
    exact inspectContext_Context env _

/-- C5, witness: a two-cluster run completed in reverse order still fills
both slots with their own contexts. -/
theorem c5_witness :
    (runSchedule envDown ["a", "b"] [1, 0]).length = 2 ∧
    ((runSchedule envDown ["a", "b"] [1, 0]).getD 0 zeroStatus).Context = "a" ∧
    ((runSchedule envDown ["a", "b"] [1, 0]).getD 1 zeroStatus).Context = "b" := by
  have h := c5_aggregator_shape envDown ["a", "b"] [1, 0]
    (fun j hj => by
      simp only [List.length_cons, List.length_nil] at hj
      simp only [List.mem_cons, List.mem_singleton]
      omega)
  exact ⟨h.1, h.2.2 0 (by decide), h.2.2 1 (by decide)⟩

/-! ### Claim C6 -/

/-- A string with a nonempty prefix is nonempty. -/
theorem append_ne_empty {p q : String} (hp : p.data ≠ []) : p ++ q ≠ "" := by
  intro h
  have hd := congrArg String.data h
  rw [String.data_append] at hd
  rcases List.append_eq_nil.mp hd with ⟨h1, _⟩
  exact hp h1

/-- C6: a failing step populates Error (with the distinguished
"timeout after 5s" message on the timeout path) and returns early with
every later-step field at its zero value — KarpenterInstalled false,
KarpenterVersion "", Compatible none, UpgradeAvailable false,
LatestCompatible "" — and each result slot is a function of its own
context only, so no other element's status is affected. -/
theorem c6_error_isolation (env : Env) (ctx : String) :
    (∀ e, env.getServerVersion ctx = .err e →
      inspectContext env ctx =
        { zeroStatus with
            Context := ctx
            Provider := env.detectProvider ctx
            Error := "cluster unreachable: " ++ e } ∧
      ("cluster unreachable: " ++ e : String) ≠ "") ∧
    (env.getServerVersion ctx = .timeout →
      inspectContext env ctx =
        { zeroStatus with
            Context := ctx
            Provider := env.detectProvider ctx
            Error := "cluster unreachable: timeout after 5s" }) ∧
    (∀ v e, env.getServerVersion ctx = .ok v → env.detectKarpenter ctx = .error e →
      inspectContext env ctx =
        { zeroStatus with
            Context := ctx
            Provider := env.detectProvider ctx
            K8sVersion := v
            Error := "helm error: " ++ e } ∧
      ("helm error: " ++ e : String) ≠ "") ∧
    (∀ (contexts : List String) (j : Nat), j < contexts.length →
      (checkClusters env contexts).getD j zeroStatus
        = inspectContext env (contexts.getD j "")) := by
  refine ⟨?_, ?_, ?_, ?_⟩
  · intro e h
    have hw : withTimeout (env.getServerVersion ctx) = .error ("" ++ e) := by rw [h]; rfl
    constructor
    · simp [inspectContext, hw, zeroStatus]
    · exact append_ne_empty (by decide)
  · intro h
    have hw : withTimeout (env.getServerVersion ctx)
        = .error "timeout after 5s" := by rw [h]; rfl
    simp [inspectContext, hw, zeroStatus]
  · intro v e h h2
    have hw : withTimeout (env.getServerVersion ctx) = .ok v := by rw [h]; rfl
    constructor
    · simp [inspectContext, hw, h2, zeroStatus]
    · exact append_ne_empty (by decide)
  · intro contexts j hj
    unfold checkClusters runSchedule
    rw [foldl_writeSlot_getD env contexts _ _ (List.length_replicate _ _) j,
      if_pos ⟨List.mem_range.mpr hj, hj⟩]

/-- C6, witness: the error path at a concrete unreachable cluster — the
version fetch fails, Error is set and every later field stays zero. -/
theorem c6_witness :
    inspectContext envErr "down" =
      { zeroStatus with
          Context := "down"
          Provider := ProviderAWS
          Error := "cluster unreachable: connection refused" } ∧
    ("cluster unreachable: connection refused" : String) ≠ "" := by
  have h := (c6_error_isolation envErr "down").1 "connection refused" (by decide)
  exact ⟨by rw [h.1]; rfl, h.2⟩

end Karpx
